import Mathlib

/-!
Shallow embedding of the Burrow ("Bur") scripting-language runtime and
bytecode compiler, translated from the Rust sources:

  * src/bytecode/op_code.rs               (OpCode)
  * src/parse_tree/expr/op/binary.rs      (BinOpExpr, BinOpKind)
  * src/parse_tree/expr/op/unary.rs       (UnaryOpExpr, UnaryOpKind)
  * src/parse_tree/expr/value/literal.rs  (LiteralExpr)
  * src/parse_tree/stmt/mod.rs            (Stmt, Block)
  * src/parse_tree/stmt/control.rs        (ControlStmt, WhileStmt, IfStmt, ForStmt, TryStmt)
  * src/parse_tree/decl/variable.rs       (VariableDecl, VariableImpl)
  * src/runtime/value/string_pool.rs      (StringPool)
  * src/runtime/value/object_pool.rs      (ObjectPool, get_property, set_property, MarkChildren)
  * src/runtime/mod.rs                    (Runtime.create_native_module)

Rust data is modelled as follows.  A `Vec<T>` behind a `&mut` becomes a
`List T` threaded through the function and returned; `Vec::push` appends at
the end and `Vec::pop` removes the last element.  `Result<T, E>` becomes
`Except E T`, `Option<T>` becomes `Option T`.  A Rust `panic!` or an
out-of-bounds index is modelled by an outer `Option` (`none` = panic) where
a claim depends on it.  `usize` indices become `Nat`; the `isize` payload of
`PushConstInt` becomes `Int`.  `f32` payloads are never inspected by any
claim; they are carried as their 32-bit pattern (a `Nat`).  String interning
handles (`Arc<str>`, `StrReference`) become `String`: inside a single pool,
`StrReference` equality coincides with byte equality because the pool
deduplicates.  Source slices (`StringSlice`) are carried opaquely as
`String`.  Recursion that Rust runs on the heap (prototype chains, the
garbage-collector DFS, the collector loop) is given an explicit fuel
parameter; with enough fuel the model computes exactly what the Rust code
computes, and `none` marks running out of fuel (the Rust code would still
be running).
-/

/-- Source slices only travel through the compiler output; their contents are
never inspected by the lowering rules, so they are carried as plain strings. -/
abbrev StringSlice := String

/-- Bit pattern of an `f32` payload; never inspected by any lowering rule. -/
abbrev F32 := Nat

/-- The `f32::INFINITY` bit pattern used by literal lowering. -/
def f32Infinity : F32 := 0x7f800000

/-- The `f32::NAN` bit pattern used by literal lowering. -/
def f32NaN : F32 := 0x7fc00000

/-- src/bytecode/op_code.rs: the instruction set. -/
inductive OpCode where
  | SetSlice (slice : StringSlice)
  | PushVariable (name : String)
  | PushException
  | PushThis
  | PushPrototype
  | StoreProtorype
  | PushConstInt (value : Int)
  | PushConstFloat (value : F32)
  | PushConstBool (value : Bool)
  | PushConstString (value : String)
  | PushFunction (index : Nat)
  | PushNewObject
  | PushNewArray (initial_size : Nat)
  | PushConstNone
  | StoreVariable (name : String)
  | InitVariable (name : String)
  | MarkVariableConst (name : String)
  | Invoke (param_count : Nat) (this_call : Bool)
  | PushContext
  | PopContext
  | PushIndex
  | StoreIndex
  | Dupe
  | Pop
  | Throw
  | Return
  | OpAdd
  | OpSub
  | OpMul
  | OpDiv
  | OpRem
  | OpGe
  | OpLe
  | OpGt
  | OpLt
  | OpEq
  | OpNe
  | OpOr
  | OpAnd
  | OpUnaryAdd
  | OpUnarySub
  | OpUnaryNot
  | ProtoEq
  | ProtoNe
  | Jump (location : Nat)
  | JumpTrue (location : Nat)
  | JumpFalse (location : Nat)
  | PushCatch (location : Nat)
  | PopCatch
  | Import (path : String)
  | Export (name : String)
  | TempBreak
  | TempContinue
deriving Repr

/-- src/bytecode/mod.rs: `BytecodeGenerationError`.  The `ParserError`
payload is irrelevant to every claim and is carried opaquely. -/
inductive BytecodeGenerationError where
  | ParserError
  | IllegalAssignment (slice : StringSlice)
  | IllegalExport (slice : StringSlice)
  | IllegalBreak (slice : StringSlice)
  | IllegalContinue (slice : StringSlice)
deriving DecidableEq, Repr

/-- src/tokenizer/token.rs: `Number`.  The tokenizer stores the integral
payload; its width (i32 in the token, isize in the opcode) is immaterial to
the claims, so both are `Int` here. -/
inductive Number where
  | Integer (value : Int)
  | Floating (value : F32)
deriving DecidableEq, Repr

/-- src/parse_tree/expr/op/binary.rs: `BinOpKind`. -/
inductive BinOpKind where
  | Add | Sub
  | Mul | Div | Rem
  | Greater | Less | GreaterEqual | LessEqual
  | Equal | NotEqual
  | Is | IsNot
  | And
  | Or
deriving DecidableEq, Repr

/-- src/parse_tree/expr/op/unary.rs: `UnaryOpKind`. -/
inductive UnaryOpKind where
  | Add | Sub | Not
deriving DecidableEq, Repr

/-- src/parse_tree/expr/value/literal.rs: `LiteralExprKind`. -/
inductive LiteralExprKind where
  | Number (n : Number)
  | String (value : String)
  | Bool (value : Bool)
  | Variable (name : String)
  | This
  | Infinity
  | NaN
  | None
deriving DecidableEq, Repr

/-- src/parse_tree/expr/value/literal.rs: `LiteralExpr`. -/
structure LiteralExpr where
  slice : StringSlice
  kind : LiteralExprKind
deriving DecidableEq, Repr

mutual

/-- src/parse_tree/expr/mod.rs: `Expr`.  The embedding covers the
expression fragment exercised by the claims (literals, binary and unary
operators); the `Object`, `Array` and `Access` forms are not referenced by
any claim and are omitted from the fragment. -/
inductive Expr where
  | mk (slice : StringSlice) (kind : ExprKind)

/-- src/parse_tree/expr/mod.rs: `ExprKind` (claim fragment). -/
inductive ExprKind where
  | Literal (e : LiteralExpr)
  | BinOp (e : BinOpExpr)
  | UnaryOp (e : UnaryOpExpr)

/-- src/parse_tree/expr/op/binary.rs: `BinOpExpr`. -/
inductive BinOpExpr where
  | mk (slice : StringSlice) (lhs : Expr) (op : BinOpKind) (rhs : Expr)

/-- src/parse_tree/expr/op/unary.rs: `UnaryOpExpr`. -/
inductive UnaryOpExpr where
  | mk (slice : StringSlice) (op : UnaryOpKind) (value : Expr)

end

/-- src/parse_tree/expr/value/literal.rs: `LiteralExpr::generate_bytecode`. -/
def LiteralExpr.generate_bytecode (e : LiteralExpr) (bytecode : List OpCode) :
    Except BytecodeGenerationError (List OpCode) :=
  let bytecode := bytecode ++ [OpCode.SetSlice e.slice]
  let bytecode := match e.kind with
    | LiteralExprKind.Number (Number.Integer value) => bytecode ++ [OpCode.PushConstInt value]
    | LiteralExprKind.Number (Number.Floating value) => bytecode ++ [OpCode.PushConstFloat value]
    | LiteralExprKind.String value => bytecode ++ [OpCode.PushConstString value]
    | LiteralExprKind.Bool value => bytecode ++ [OpCode.PushConstBool value]
    | LiteralExprKind.Variable name => bytecode ++ [OpCode.PushVariable name]
    | LiteralExprKind.This => bytecode ++ [OpCode.PushThis]
    | LiteralExprKind.Infinity => bytecode ++ [OpCode.PushConstFloat f32Infinity]
    | LiteralExprKind.NaN => bytecode ++ [OpCode.PushConstFloat f32NaN]
    | LiteralExprKind.None => bytecode ++ [OpCode.PushConstNone]
  Except.ok bytecode

mutual

/-- Modelled from the spec: `Expr::generate_bytecode` itself is not among
the sources (only its per-kind implementations are); spec section 4.3 fixes
expression lowering as dispatch on the node kind. -/
def Expr.generate_bytecode : Expr → List OpCode →
    Except BytecodeGenerationError (List OpCode)
  | Expr.mk _ (ExprKind.Literal e), bytecode => e.generate_bytecode bytecode
  | Expr.mk _ (ExprKind.BinOp e), bytecode => BinOpExpr.generate_bytecode e bytecode
  | Expr.mk _ (ExprKind.UnaryOp e), bytecode => UnaryOpExpr.generate_bytecode e bytecode

/-- src/parse_tree/expr/op/binary.rs: `BinOpExpr::generate_bytecode`.
Lowers lhs, then rhs, records the slice, then emits the operator opcode;
the `Mul`, `Div` and `Rem` arms of the Rust `match` push `OpCode::OpAdd`. -/
def BinOpExpr.generate_bytecode : BinOpExpr → List OpCode →
    Except BytecodeGenerationError (List OpCode)
  | BinOpExpr.mk slice lhs op rhs, bytecode => do
    let bytecode ← lhs.generate_bytecode bytecode
    let bytecode ← rhs.generate_bytecode bytecode
    let bytecode := bytecode ++ [OpCode.SetSlice slice]
    let bytecode := match op with
      | BinOpKind.Add => bytecode ++ [OpCode.OpAdd]
      | BinOpKind.Sub => bytecode ++ [OpCode.OpSub]
      | BinOpKind.Mul => bytecode ++ [OpCode.OpAdd]
      | BinOpKind.Div => bytecode ++ [OpCode.OpAdd]
      | BinOpKind.Rem => bytecode ++ [OpCode.OpAdd]
      | BinOpKind.Greater => bytecode ++ [OpCode.OpGt]
      | BinOpKind.Less => bytecode ++ [OpCode.OpLt]
      | BinOpKind.GreaterEqual => bytecode ++ [OpCode.OpGe]
      | BinOpKind.LessEqual => bytecode ++ [OpCode.OpLe]
      | BinOpKind.Equal => bytecode ++ [OpCode.OpEq]
      | BinOpKind.NotEqual => bytecode ++ [OpCode.OpNe]
      | BinOpKind.Is => bytecode ++ [OpCode.ProtoEq]
      | BinOpKind.IsNot => bytecode ++ [OpCode.ProtoNe]
      | BinOpKind.And => bytecode ++ [OpCode.OpAnd]
      | BinOpKind.Or => bytecode ++ [OpCode.OpOr]
    return bytecode

/-- src/parse_tree/expr/op/unary.rs: `UnaryOpExpr::generate_bytecode`. -/
def UnaryOpExpr.generate_bytecode : UnaryOpExpr → List OpCode →
    Except BytecodeGenerationError (List OpCode)
  | UnaryOpExpr.mk slice op value, bytecode => do
    let bytecode ← value.generate_bytecode bytecode
    let bytecode := bytecode ++ [OpCode.SetSlice slice]
    let bytecode := match op with
      | UnaryOpKind.Add => bytecode ++ [OpCode.OpUnaryAdd]
      | UnaryOpKind.Sub => bytecode ++ [OpCode.OpUnarySub]
      | UnaryOpKind.Not => bytecode ++ [OpCode.OpUnaryNot]
    return bytecode

end

/-- Shorthand for an integer literal expression. -/
def intLit (n : Int) : Expr :=
  Expr.mk "n" (ExprKind.Literal ⟨"n", LiteralExprKind.Number (Number.Integer n)⟩)

/-- Shorthand for a binary-operator expression node. -/
def binOp (op : BinOpKind) (lhs rhs : Expr) : Expr :=
  Expr.mk "b" (ExprKind.BinOp (BinOpExpr.mk "b" lhs op rhs))

/-! ## Statements and their lowering (src/parse_tree/stmt) -/

mutual

/-- src/parse_tree/stmt/mod.rs: `Stmt`. -/
inductive Stmt where
  | mk (slice : StringSlice) (kind : StmtKind)

/-- src/parse_tree/stmt/mod.rs: `StmtKind`. -/
inductive StmtKind where
  | Control (c : ControlStmt)
  | Expr (e : Expr)
  | Variable (v : VariableImplNode)

/-- src/parse_tree/stmt/mod.rs: `Block`. -/
inductive Block where
  | mk (slice : StringSlice) (stmts : List Stmt)

/-- src/parse_tree/stmt/control.rs: `ControlStmt`. -/
inductive ControlStmt where
  | mk (slice : StringSlice) (kind : ControlKind)

/-- src/parse_tree/stmt/control.rs: `ControlKind`. -/
inductive ControlKind where
  | While (s : WhileStmt)
  | If (s : IfStmt)
  | For (s : ForStmt)
  | Try (s : TryStmt)
  | Throw (e : Expr)
  | Return (e : Option Expr)
  | Export (name : String)
  | Continue
  | Break

/-- src/parse_tree/stmt/control.rs: `TryStmt`. -/
inductive TryStmt where
  | mk (slice : StringSlice) (try_block : Block) (catch_name : String) (catch_block : Block)

/-- src/parse_tree/stmt/control.rs: `WhileStmt`; `until` is true for an
`until` loop, false for a `while` loop. -/
inductive WhileStmt where
  | mk (slice : StringSlice) (untilFlag : Bool) (arm : ConditionArm)

/-- src/parse_tree/stmt/control.rs: `IfStmt`. -/
inductive IfStmt where
  | mk (slice : StringSlice) (arms : List ConditionArm) (else_arm : Option Block)

/-- src/parse_tree/stmt/control.rs: `ForStmt`. -/
inductive ForStmt where
  | mk (slice : StringSlice) (name : String) (expr : Expr) (block : Block)

/-- src/parse_tree/stmt/control.rs: `ConditionArm`. -/
inductive ConditionArm where
  | mk (slice : StringSlice) (condition : Expr) (block : Block)

/-- src/parse_tree/decl/variable.rs: `VariableImpl` (a declaration plus an
optional initializer).  Named `VariableImplNode` because `VariableImpl`
reads as an implementation block in Lean conventions; fields are the
source fields, with the Rust field `export` spelled `is_export`. -/
inductive VariableImplNode where
  | mk (slice : StringSlice) (decl : VariableDeclNode) (init : Option Expr)

/-- src/parse_tree/decl/variable.rs: `VariableDecl`.  The `param` field is
flattened to the bound name: the claims never inspect the optional type
annotation carried by `VariableName`, and `VariableImpl::generate_bytecode`
reads only `self.decl.param.name`. -/
inductive VariableDeclNode where
  | mk (slice : StringSlice) (is_export : Bool) (is_const : Bool) (param_name : String)

end

/-- The name bound by a declaration (`self.decl.param.name`). -/
def VariableDeclNode.param_name : VariableDeclNode → String
  | VariableDeclNode.mk _ _ _ n => n

/-- The `is_const` flag of a declaration. -/
def VariableDeclNode.is_const : VariableDeclNode → Bool
  | VariableDeclNode.mk _ _ c _ => c

/-- The `export` flag of a declaration. -/
def VariableDeclNode.is_export : VariableDeclNode → Bool
  | VariableDeclNode.mk _ e _ _ => e

/-- The source slice of a declaration. -/
def VariableDeclNode.slice : VariableDeclNode → StringSlice
  | VariableDeclNode.mk s _ _ _ => s

/-- src/parse_tree/decl/variable.rs: `VariableImpl::generate_bytecode`:
`InitVariable`, then the lowered initializer followed by `StoreVariable`
when present, then `MarkVariableConst` when `is_const`, then `Export` when
exported (exporting outside the init function is `IllegalExport`). -/
def VariableImplNode.generate_bytecode :
    VariableImplNode → List OpCode → Bool →
    Except BytecodeGenerationError (List OpCode)
  | VariableImplNode.mk slice decl init, bytecode, allow_export => do
    if !allow_export && decl.is_export then
      throw (BytecodeGenerationError.IllegalExport slice)
    let name := decl.param_name
    let bytecode := bytecode ++ [OpCode.InitVariable name]
    let bytecode ← match init with
      | some i => do
        let bytecode ← i.generate_bytecode bytecode
        pure (bytecode ++ [OpCode.StoreVariable name])
      | none => pure bytecode
    let bytecode := if decl.is_const then bytecode ++ [OpCode.MarkVariableConst name] else bytecode
    let bytecode := if decl.is_export then bytecode ++ [OpCode.Export name] else bytecode
    return bytecode

/-- The patch pass run over a freshly lowered loop body: every `TempBreak`
at an index in `[lo, hi)` becomes `Jump breakLoc` and every `TempContinue`
there becomes `Jump contLoc` (the two `for` loops over
`(jump_update_index + 1)..exit_index` in src/parse_tree/stmt/control.rs). -/
def patchTempRange (bytecode : List OpCode) (lo hi breakLoc contLoc : Nat) : List OpCode :=
  bytecode.enum.map fun p =>
    if lo ≤ p.1 ∧ p.1 < hi then
      match p.2 with
      | OpCode.TempBreak => OpCode.Jump breakLoc
      | OpCode.TempContinue => OpCode.Jump contLoc
      | op => op
    else p.2

mutual

/-- src/parse_tree/stmt/mod.rs: `Stmt::generate_bytecode`. -/
def Stmt.generate_bytecode :
    Stmt → List OpCode → Bool → Bool → Except BytecodeGenerationError (List OpCode)
  | Stmt.mk slice kind, bytecode, allow_export, allow_break_continue =>
    let bytecode := bytecode ++ [OpCode.SetSlice slice]
    match kind with
    | StmtKind.Control control =>
      ControlStmt.generate_bytecode control bytecode allow_export allow_break_continue
    | StmtKind.Variable var => var.generate_bytecode bytecode allow_export
    | StmtKind.Expr expr => do
      let bytecode ← expr.generate_bytecode bytecode
      return bytecode ++ [OpCode.Pop]

/-- The `for stmt in self.stmts` loop of `Block::generate_bytecode`. -/
def stmtsGenerate :
    List Stmt → List OpCode → Bool → Bool → Except BytecodeGenerationError (List OpCode)
  | [], bytecode, _, _ => Except.ok bytecode
  | stmt :: rest, bytecode, allow_export, allow_break_continue => do
    let bytecode ← Stmt.generate_bytecode stmt bytecode allow_export allow_break_continue
    stmtsGenerate rest bytecode allow_export allow_break_continue

/-- src/parse_tree/stmt/mod.rs: `Block::generate_bytecode`: `SetSlice`,
`PushContext`, each statement under the same flags, `PopContext`. -/
def Block.generate_bytecode :
    Block → List OpCode → Bool → Bool → Except BytecodeGenerationError (List OpCode)
  | Block.mk slice stmts, bytecode, allow_export, allow_break_continue => do
    let bytecode := bytecode ++ [OpCode.SetSlice slice]
    let bytecode := bytecode ++ [OpCode.PushContext]
    let bytecode ← stmtsGenerate stmts bytecode allow_export allow_break_continue
    return bytecode ++ [OpCode.PopContext]

/-- src/parse_tree/stmt/control.rs: `ControlStmt::generate_bytecode`.
`Break`/`Continue` are `IllegalBreak`/`IllegalContinue` unless
`allow_break_continue`; `Export` is `IllegalExport` unless `allow_export`. -/
def ControlStmt.generate_bytecode :
    ControlStmt → List OpCode → Bool → Bool → Except BytecodeGenerationError (List OpCode)
  | ControlStmt.mk slice kind, bytecode, allow_export, allow_break_continue =>
    let bytecode := bytecode ++ [OpCode.SetSlice slice]
    match kind with
    | ControlKind.Break =>
      if !allow_break_continue then
        throw (BytecodeGenerationError.IllegalBreak slice)
      else
        Except.ok (bytecode ++ [OpCode.TempBreak])
    | ControlKind.Continue =>
      if !allow_break_continue then
        throw (BytecodeGenerationError.IllegalContinue slice)
      else
        Except.ok (bytecode ++ [OpCode.TempContinue])
    | ControlKind.Export name =>
      if !allow_export then
        throw (BytecodeGenerationError.IllegalExport slice)
      else
        Except.ok (bytecode ++ [OpCode.Export name])
    | ControlKind.Return value =>
      match value with
      | some value => do
        let bytecode ← value.generate_bytecode bytecode
        return bytecode ++ [OpCode.SetSlice slice, OpCode.Return]
      | none => Except.ok (bytecode ++ [OpCode.PushConstNone, OpCode.Return])
    | ControlKind.Throw value => do
      let bytecode ← value.generate_bytecode bytecode
      return bytecode ++ [OpCode.SetSlice slice, OpCode.Throw]
    | ControlKind.For stmt => ForStmt.generate_bytecode stmt bytecode
    | ControlKind.If stmt => IfStmt.generate_bytecode stmt bytecode
    | ControlKind.Try stmt => TryStmt.generate_bytecode stmt bytecode
    | ControlKind.While stmt => WhileStmt.generate_bytecode stmt bytecode

/-- src/parse_tree/stmt/control.rs: `TryStmt::generate_bytecode`. -/
def TryStmt.generate_bytecode :
    TryStmt → List OpCode → Except BytecodeGenerationError (List OpCode)
  | TryStmt.mk _ try_block catch_name catch_block, bytecode => do
    let catch_update_index := bytecode.length
    let bytecode := bytecode ++ [OpCode.PushCatch 0]
    let bytecode ← Block.generate_bytecode try_block bytecode false false
    let bytecode := bytecode ++ [OpCode.PopCatch]
    let jump_update_index := bytecode.length
    let bytecode := bytecode ++ [OpCode.Jump 0]
    let bytecode := bytecode.set catch_update_index (OpCode.PushCatch bytecode.length)
    let bytecode := bytecode ++
      [OpCode.InitVariable catch_name, OpCode.PushException,
       OpCode.StoreVariable catch_name, OpCode.Pop, OpCode.MarkVariableConst catch_name]
    let bytecode ← Block.generate_bytecode catch_block bytecode false false
    let bytecode := bytecode.set jump_update_index (OpCode.Jump bytecode.length)
    return bytecode

/-- src/parse_tree/stmt/control.rs: `WhileStmt::generate_bytecode`: the
condition at a recorded index, a `JumpTrue 0` placeholder, the body lowered
with break/continue allowed, the temp-patch pass, then the placeholder is
rewritten to `JumpFalse exit` (`JumpTrue exit` for `until`).  Note the Rust
function emits no instruction after the body. -/
def WhileStmt.generate_bytecode :
    WhileStmt → List OpCode → Except BytecodeGenerationError (List OpCode)
  | WhileStmt.mk _ untilFlag (ConditionArm.mk _ condition block), bytecode => do
    let condition_index := bytecode.length
    let bytecode ← condition.generate_bytecode bytecode
    let jump_update_index := bytecode.length
    let bytecode := bytecode ++ [OpCode.JumpTrue 0]
    let bytecode ← Block.generate_bytecode block bytecode false true
    let exit_index := bytecode.length
    let bytecode :=
      patchTempRange bytecode (jump_update_index + 1) exit_index exit_index condition_index
    let bytecode :=
      if untilFlag then bytecode.set jump_update_index (OpCode.JumpTrue exit_index)
      else bytecode.set jump_update_index (OpCode.JumpFalse exit_index)
    return bytecode

/-- The first `for arm in self.arms` loop of `IfStmt::generate_bytecode`:
lower each condition and push a `JumpTrue 0` placeholder, recording its
index. -/
def ifArmsConditions :
    List ConditionArm → List OpCode →
    Except BytecodeGenerationError (List OpCode × List Nat)
  | [], bytecode => Except.ok (bytecode, [])
  | ConditionArm.mk _ condition _ :: rest, bytecode => do
    let bytecode ← condition.generate_bytecode bytecode
    let idx := bytecode.length
    let bytecode := bytecode ++ [OpCode.JumpTrue 0]
    let (bytecode, rest_indices) ← ifArmsConditions rest bytecode
    return (bytecode, idx :: rest_indices)

/-- The second `for arm in self.arms` loop of `IfStmt::generate_bytecode`:
lower each arm block (break/continue disallowed) recording its start index,
and push a `Jump 0` exit placeholder after it, recording its index. -/
def ifArmsBlocks :
    List ConditionArm → List OpCode →
    Except BytecodeGenerationError (List OpCode × List Nat × List Nat)
  | [], bytecode => Except.ok (bytecode, [], [])
  | ConditionArm.mk _ _ block :: rest, bytecode => do
    let block_index := bytecode.length
    let bytecode ← Block.generate_bytecode block bytecode false false
    let exit_index := bytecode.length
    let bytecode := bytecode ++ [OpCode.Jump 0]
    let (bytecode, block_indices, exit_indices) ← ifArmsBlocks rest bytecode
    return (bytecode, block_index :: block_indices, exit_index :: exit_indices)

/-- src/parse_tree/stmt/control.rs: `IfStmt::generate_bytecode`. -/
def IfStmt.generate_bytecode :
    IfStmt → List OpCode → Except BytecodeGenerationError (List OpCode)
  | IfStmt.mk _ arms else_arm, bytecode => do
    let (bytecode, jump_update_indices) ← ifArmsConditions arms bytecode
    let else_index := bytecode.length
    let bytecode := bytecode ++ [OpCode.Jump 0]
    let (bytecode, block_indices, exit_indices) ← ifArmsBlocks arms bytecode
    let bytecode :=
      (jump_update_indices.zip block_indices).foldl
        (fun bc p => bc.set p.1 (OpCode.JumpTrue p.2)) bytecode
    let bytecode := bytecode.set else_index (OpCode.Jump bytecode.length)
    let bytecode ← match else_arm with
      | some else_arm => Block.generate_bytecode else_arm bytecode false false
      | none => pure bytecode
    let exit_index := bytecode.length
    let bytecode := exit_indices.foldl (fun bc i => bc.set i (OpCode.Jump exit_index)) bytecode
    return bytecode

/-- src/parse_tree/stmt/control.rs: `ForStmt::generate_bytecode`: the
for-each desugaring over `__each_<name>_value__` / `__each_<name>_index__`.
Note the loop-header placeholder is `Jump 0` and is later rewritten to the
unconditional `Jump exit_pos`. -/
def ForStmt.generate_bytecode :
    ForStmt → List OpCode → Except BytecodeGenerationError (List OpCode)
  | ForStmt.mk _ name expr block, bytecode => do
    let value_name := "__each_" ++ name ++ "_value__"
    let index_name := "__each_" ++ name ++ "_index__"
    let bytecode := bytecode ++ [OpCode.InitVariable value_name]
    let bytecode ← expr.generate_bytecode bytecode
    let bytecode := bytecode ++ [OpCode.StoreVariable value_name, OpCode.Pop]
    let bytecode := bytecode ++
      [OpCode.InitVariable index_name, OpCode.PushConstInt 0,
       OpCode.StoreVariable index_name, OpCode.Pop]
    let bytecode := bytecode ++ [OpCode.Jump (bytecode.length + 6)]
    let increment_pos := bytecode.length
    let bytecode := bytecode ++
      [OpCode.PushVariable index_name, OpCode.PushConstInt 1, OpCode.OpAdd,
       OpCode.StoreVariable index_name, OpCode.Pop]
    let bytecode := bytecode ++
      [OpCode.PushVariable index_name, OpCode.PushVariable value_name,
       OpCode.PushConstString "length", OpCode.PushIndex, OpCode.OpLt]
    let update_exit_pos := bytecode.length
    let bytecode := bytecode ++ [OpCode.Jump 0]
    let bytecode ← Block.generate_bytecode block bytecode false true
    let exit_pos := bytecode.length
    let bytecode := patchTempRange bytecode (update_exit_pos + 1) exit_pos exit_pos increment_pos
    let bytecode := bytecode.set update_exit_pos (OpCode.Jump exit_pos)
    return bytecode

end

/-! ## Runtime values and the object pool (src/runtime/value/object_pool.rs) -/

/-- The runtime value union used by src/runtime/value/object_pool.rs and
spec section 3: `Integer`, `Float`, `Boolean`, `String(StrReference)`,
`Object(ObjectReference)`, `None` and the `Uninitialized` sentinel.  An
`ObjectReference` is its slot index (a single pool; the cross-pool panic of
`mark_reference` therefore cannot arise).  A `StrReference` is its string. -/
inductive Value where
  | Integer (n : Int)
  | Float (bits : F32)
  | Boolean (b : Bool)
  | String (s : String)
  | Object (index : Nat)
  | None
  | Uninitialized
deriving DecidableEq, Repr

/-- src/runtime/value/object_pool.rs: `Property`. -/
inductive Property where
  | Value (v : Value)
  | GetSet (get : Value) (set : Value)
deriving DecidableEq, Repr

/-- src/runtime/value/object_pool.rs: `Object`.  The `IndexMap` of
properties is an insertion-ordered association list.  The optional
`native_value` handler is omitted: no claim involves native objects, and
`get_property`/`set_property` never consult it. -/
structure Object where
  values : List (String × Property)
  prototype : Option Nat
deriving DecidableEq, Repr

/-- src/runtime/value/object_pool.rs: `ObjectPoolValue` (one slot). -/
structure ObjectPoolValue where
  value : Option Object
  ref_count : Nat
deriving DecidableEq, Repr

/-- src/runtime/value/object_pool.rs: `ObjectPool`.  The `finalize` hash
set is a list of indices. -/
structure ObjectPool where
  finalize : List Nat
  values : List ObjectPoolValue
  free_indices : List Nat
deriving DecidableEq, Repr

/-- `ObjectReference::get`: read slot `i`; `none` models the panic on a
missing or cleared slot. -/
def ObjectPool.getObject (pool : ObjectPool) (i : Nat) : Option Object :=
  (pool.values.get? i).bind (fun slot => slot.value)

/-- Replace the object stored in slot `i`, keeping its reference count
(an interior-mutability write through the slot `RwLock`). -/
def ObjectPool.setObject (pool : ObjectPool) (i : Nat) (obj : Object) : ObjectPool :=
  match pool.values.get? i with
  | some slot => { pool with values := pool.values.set i { slot with value := some obj } }
  | none => pool

/-- In-place update of the property stored under key `k` (the write through
the entry's `RwLock` in `set_property`); insertion order is untouched. -/
def assocUpdate (m : List (String × Property)) (k : String) (p : Property) :
    List (String × Property) :=
  m.map fun q => if q.1 = k then (k, p) else q

/-- Modelled from the spec: `Value::invoke` (dispatch of an invocation on a
callable value) is not among the sources; only the `NativeValue::invoke`
hook is.  Spec section 4.2 treats accessor and `__get_index__` calls as
invocations returning `Result<Value, Value>`, so the invoker is carried as
an explicit parameter `inv callee this_obj params`. -/
abbrev Invoker := Value → Value → List Value → Except Value Value

/-- src/runtime/value/object_pool.rs: `ObjectReference::get_property`.
Step 1: a `String` key with a present slot returns a non-`Uninitialized`
direct value, or invokes a non-`Uninitialized` `get` accessor with
`[property]`; an `Uninitialized` direct value or accessor falls through to
the fallback half of the function (`__get_index__`, then the prototype,
then `Uninitialized`), inlined here exactly as `get_property_fallback`
below packages it.  `fuel` bounds prototype recursion; `none` means the
Rust code would not have returned yet (or panicked on a dead slot). -/
def get_property : Nat → ObjectPool → Invoker → Value → Nat → Value →
    Option (Except Value Value)
  | 0, _, _, _, _, _ => none
  | fuel+1, pool, inv, this_obj, i, property =>
    match pool.getObject i with
    | none => none
    | some obj =>
      let fallback : Option (Except Value Value) :=
        match obj.values.lookup "__get_index__" with
        | some (Property.Value handler) =>
          (match inv handler this_obj [property] with
          | Except.error e => some (Except.error e)
          | Except.ok result =>
            if result = Value.Uninitialized then
              match obj.prototype with
              | some proto => get_property fuel pool inv this_obj proto property
              | none => some (Except.ok Value.Uninitialized)
            else some (Except.ok result))
        | _ =>
          match obj.prototype with
          | some proto => get_property fuel pool inv this_obj proto property
          | none => some (Except.ok Value.Uninitialized)
      match property with
      | Value.String str =>
        (match obj.values.lookup str with
        | some (Property.Value val) =>
          if val = Value.Uninitialized then fallback
          else some (Except.ok val)
        | some (Property.GetSet get _) =>
          if get = Value.Uninitialized then fallback
          else some (inv get this_obj [property])
        | none => fallback)
      | _ => fallback

/-- Steps 2-4 of `ObjectReference::get_property` as a standalone function:
invoke a plain-`Value` `__get_index__` entry with `[property]` (a
non-`Uninitialized` result returns, an error propagates), else recurse
into the prototype with the given `fuel`, else return `Uninitialized`.
`get_property (fuel+1)` falls through to exactly
`get_property_fallback fuel`. -/
def get_property_fallback (fuel : Nat) (pool : ObjectPool) (inv : Invoker)
    (this_obj : Value) (property : Value) (obj : Object) :
    Option (Except Value Value) :=
  match obj.values.lookup "__get_index__" with
  | some (Property.Value handler) =>
    (match inv handler this_obj [property] with
    | Except.error e => some (Except.error e)
    | Except.ok result =>
      if result = Value.Uninitialized then
        match obj.prototype with
        | some proto => get_property fuel pool inv this_obj proto property
        | none => some (Except.ok Value.Uninitialized)
      else some (Except.ok result))
  | _ =>
    match obj.prototype with
    | some proto => get_property fuel pool inv this_obj proto property
    | none => some (Except.ok Value.Uninitialized)

/-- src/runtime/value/object_pool.rs: `ObjectReference::set_index`: invoke
a plain-`Value` `__set_index__` entry, else recurse into the prototype,
else return `Uninitialized`; the pool is never modified.  Note the Rust
body shadows its `value` parameter with the handler binding, so the
invocation arguments are `[property, handler]`, not `[property, value]`;
the transcription keeps that behaviour. -/
def set_index : Nat → ObjectPool → Invoker → Value → Nat → Value → Value →
    Option (Except Value Value)
  | 0, _, _, _, _, _, _ => none
  | fuel+1, pool, inv, this_obj, i, property, value =>
    match pool.getObject i with
    | none => none
    | some obj =>
      match obj.values.lookup "__set_index__" with
      | some (Property.Value handler) =>
        (match inv handler this_obj [property, handler] with
        | Except.error e => some (Except.error e)
        | Except.ok result =>
          if result = Value.Uninitialized then
            match obj.prototype with
            | some proto => set_index fuel pool inv this_obj proto property value
            | none => some (Except.ok Value.Uninitialized)
          else some (Except.ok result))
      | _ =>
        match obj.prototype with
        | some proto => set_index fuel pool inv this_obj proto property value
        | none => some (Except.ok Value.Uninitialized)

/-- src/runtime/value/object_pool.rs: `ObjectReference::set_property`.
A present `String`-keyed slot is written in place (`Value`) or routed to a
non-`Uninitialized` `set` accessor; in every path that does not return
through an accessor, the function then calls `set_index` (the Rust body
falls through to `return self.set_index(...)` even after a successful
direct write).  No path inserts a new entry.  Returns the result together
with the (possibly updated) pool. -/
def set_property (fuel : Nat) (pool : ObjectPool) (inv : Invoker) (this_obj : Value)
    (i : Nat) (property : Value) (value : Value) :
    Option (Except Value Value × ObjectPool) :=
  match pool.getObject i with
  | none => none
  | some obj =>
    match property with
    | Value.String str =>
      (match obj.values.lookup str with
      | some (Property.Value _) =>
        let obj := { obj with values := assocUpdate obj.values str (Property.Value value) }
        let pool := pool.setObject i obj
        (set_index fuel pool inv this_obj i property value).map (fun r => (r, pool))
      | some (Property.GetSet _ setter) =>
        if setter = Value.Uninitialized then
          (set_index fuel pool inv this_obj i property value).map (fun r => (r, pool))
        else some (inv setter this_obj [property, value], pool)
      | none => (set_index fuel pool inv this_obj i property value).map (fun r => (r, pool)))
    | _ => (set_index fuel pool inv this_obj i property value).map (fun r => (r, pool))

/-! ## Cycle accounting and collection (src/runtime/value/object_pool.rs) -/

/-- src/runtime/value/object_pool.rs: `MarkChildren` (the pool and slot
vector are passed alongside instead of being captured). -/
structure MarkChildren where
  base_index : Nat
  count : Nat
  visited : List Nat
deriving DecidableEq, Repr

/-- `MarkChildren::mark_value`: follow an object edge (via the given
`mark_reference` continuation), ignore other values. -/
def mark_value (markRef : MarkChildren → Nat → MarkChildren) (m : MarkChildren)
    (child : Value) : MarkChildren :=
  match child with
  | Value.Object reference => markRef m reference
  | _ => m

/-- The property loop of `MarkChildren::mark_index`: every direct value
and both accessors of each entry, in insertion order. -/
def mark_properties (markRef : MarkChildren → Nat → MarkChildren) (m : MarkChildren) :
    List (String × Property) → MarkChildren
  | [] => m
  | p :: rest =>
    let m := match p.2 with
      | Property.Value v => mark_value markRef m v
      | Property.GetSet get set => mark_value markRef (mark_value markRef m get) set
    mark_properties markRef m rest

/-- `MarkChildren::mark_reference`: a revisit of the base index counts as a
cycle-return edge, any other revisit is pruned, a first visit recurses
(via the given `mark_index` continuation). -/
def mark_reference (markIdx : MarkChildren → Nat → MarkChildren) (m : MarkChildren)
    (reference : Nat) : MarkChildren :=
  if reference ∈ m.visited then
    if reference = m.base_index then { m with count := m.count + 1 } else m
  else markIdx m reference

/-- `MarkChildren::mark_index`: insert into `visited`, then walk every
outgoing edge of the slot (properties, then prototype), re-entering
through `mark_reference`.  `fuel` bounds the DFS depth; any `fuel` larger
than the number of slots is enough, since each nested call visits a fresh
index. -/
def mark_index : Nat → List ObjectPoolValue → MarkChildren → Nat → MarkChildren
  | 0, _, m, _ => m
  | fuel+1, values, m, index =>
    let markRef := mark_reference fun m r => mark_index fuel values m r
    let m := { m with visited := index :: m.visited }
    match (values.get? index).bind (fun slot => slot.value) with
    | none => m
    | some obj =>
      let m := mark_properties markRef m obj.values
      match obj.prototype with
      | some proto => markRef m proto
      | none => m

/-- The object references a dropped `Object` releases, in field order:
property entries (direct values, then both accessors), then the prototype. -/
def objectOutgoing (obj : Object) : List Nat :=
  (obj.values.foldr (fun p acc =>
    (match p.2 with
    | Property.Value (Value.Object r) => [r]
    | Property.GetSet get set =>
      (match get with | Value.Object r => [r] | _ => []) ++
      (match set with | Value.Object r => [r] | _ => [])
    | _ => []) ++ acc) []) ++
  (match obj.prototype with | some proto => [proto] | none => [])

/-- `ObjectPool::drop_reference` as triggered while slots are being
cleared: an index on the `finalize` set is skipped, a missing slot is a
no-op, otherwise the reference count is decremented. -/
def dropDuringClear (finalize : List Nat) (values : List ObjectPoolValue) (r : Nat) :
    List ObjectPoolValue :=
  if r ∈ finalize then values
  else
    match values.get? r with
    | none => values
    | some slot => values.set r { slot with ref_count := slot.ref_count - 1 }

/-- The `*values[*index].value.write().unwrap() = None` step of
`collect_garbage`: clearing a slot drops its object, which in turn drops
every outgoing reference. -/
def clearSlot (finalize : List Nat) (values : List ObjectPoolValue) (index : Nat) :
    List ObjectPoolValue :=
  match values.get? index with
  | none => values
  | some slot =>
    match slot.value with
    | none => values
    | some obj =>
      let values := values.set index { slot with value := none }
      (objectOutgoing obj).foldl (dropDuringClear finalize) values

/-- One iteration of the `loop` in `ObjectPool::collect_garbage`: for every
base index, run the DFS from an empty marker and schedule the slot for
deletion when `ref_count <= count`; the scheduled set doubles as the
`finalize` set while the scheduled slots are cleared in order; `finalize`
is then emptied.  Returns the new pool and `indices_to_delete`. -/
def collectPass (markFuel : Nat) (pool : ObjectPool) : ObjectPool × List Nat :=
  let indices_to_delete := (List.range pool.values.length).filter fun base_index =>
    match pool.values.get? base_index with
    | some slot =>
      decide (slot.ref_count ≤ (mark_index markFuel pool.values ⟨base_index, 0, []⟩ base_index).count)
    | none => false
  let finalize := indices_to_delete
  let values := indices_to_delete.foldl (clearSlot finalize) pool.values
  ({ pool with finalize := [], values := values }, indices_to_delete)

/-- src/runtime/value/object_pool.rs: `ObjectPool::collect_garbage`:
repeat passes until a pass deletes nothing.  `fuel` bounds the number of
passes (`none` = the Rust loop has not exited after `fuel` passes); the DFS
fuel `pool.values.length + 1` is always sufficient for `mark_index`. -/
def collect_garbage : Nat → ObjectPool → Option ObjectPool
  | 0, _ => none
  | fuel+1, pool =>
    let pass := collectPass (pool.values.length + 1) pool
    if pass.2.length = 0 then some pass.1 else collect_garbage fuel pass.1

/-! ## The string pool (src/runtime/value/string_pool.rs) -/

/-- src/runtime/value/string_pool.rs: `StringPoolValue`. -/
structure StringPoolValue where
  value : String
  ref_count : Nat
deriving DecidableEq, Repr

/-- src/runtime/value/string_pool.rs: `StringPool`.  The `HashMap` from
bytes to index is an association list holding at most one binding per key. -/
structure StringPool where
  value_map : List (String × Nat)
  values : List (Option StringPoolValue)
  free_indices : List Nat
deriving DecidableEq, Repr

/-- `HashMap::insert`: bind `k` to `v`, replacing any previous binding. -/
def mapInsert (m : List (String × Nat)) (k : String) (v : Nat) : List (String × Nat) :=
  (k, v) :: m.filter fun p => p.1 ≠ k

/-- `HashMap::remove`: drop the binding of `k`. -/
def mapRemove (m : List (String × Nat)) (k : String) : List (String × Nat) :=
  m.filter fun p => p.1 ≠ k

/-- src/runtime/value/string_pool.rs: `StringPool::acquire`: a map hit
bumps the entry's reference count and returns its index (the `panic!("h")`
on a dangling map entry is `none`); otherwise a popped free index is
rewritten in place (`none` when it is out of bounds, where the Rust
indexing would panic); otherwise a fresh slot is pushed.  Returns the new
pool and the handle's index. -/
def StringPool.acquire (pool : StringPool) (s : String) : Option (StringPool × Nat) :=
  match pool.value_map.lookup s with
  | some index =>
    (match pool.values.get? index with
    | some (some v) =>
      some ({ pool with values := pool.values.set index (some { v with ref_count := v.ref_count + 1 }) }, index)
    | _ => none)
  | none =>
    match pool.free_indices.getLast? with
    | some index =>
      if index < pool.values.length then
        some ({ value_map := mapInsert pool.value_map s index,
                values := pool.values.set index (some { value := s, ref_count := 1 }),
                free_indices := pool.free_indices.dropLast }, index)
      else none
    | none =>
      some ({ value_map := mapInsert pool.value_map s pool.values.length,
              values := pool.values ++ [some { value := s, ref_count := 1 }],
              free_indices := pool.free_indices }, pool.values.length)

/-- src/runtime/value/string_pool.rs: `StringPool::drop_reference`: a
missing or already freed slot is a no-op; otherwise decrement, and at zero
remove the bytes-to-index binding, push the index onto the free list and
null the slot. -/
def StringPool.drop_reference (pool : StringPool) (index : Nat) : StringPool :=
  match pool.values.get? index with
  | none => pool
  | some none => pool
  | some (some v) =>
    let rc := v.ref_count - 1
    if rc ≠ 0 then
      { pool with values := pool.values.set index (some { v with ref_count := rc }) }
    else
      { value_map := mapRemove pool.value_map v.value,
        values := pool.values.set index none,
        free_indices := pool.free_indices ++ [index] }

/-! ## The module cache (src/runtime/mod.rs) -/

/-- src/runtime/mod.rs: `Module` (named `RtModule` because Mathlib claims
`Module`); the optional bytecode payload is opaque to the claims. -/
structure RtModule where
  bytecode : Option Unit
  export_value : Value
deriving DecidableEq, Repr

/-- The `module_cache` of `Runtime`, keyed by interned name. -/
abbrev ModuleCache := List (String × RtModule)

/-- `HashMap::insert` on the module cache. -/
def cacheInsert (m : ModuleCache) (k : String) (v : RtModule) : ModuleCache :=
  (k, v) :: m.filter fun p => p.1 ≠ k

/-- src/runtime/mod.rs: `Runtime::create_native_module`: build the module,
insert it under the interned name, and return `insert(..).unwrap()` —
`HashMap::insert` yields the *previous* binding, so the unwrap panics
(`none`) exactly when the name was not cached before; the insertion itself
has already happened.  Returns the function result and the updated cache. -/
def create_native_module (cache : ModuleCache) (name : String) (value : Value) :
    Option RtModule × ModuleCache :=
  let old := cache.lookup name
  let cache := cacheInsert cache name { bytecode := none, export_value := value }
  (old, cache)

/-! ## Parsing `const` declarations (src/parse_tree/decl/variable.rs) -/

/-- src/tokenizer/token.rs: `Keyword` (the subset reachable from
declaration parsing; the full keyword set adds nothing the claims touch). -/
inductive Keyword where
  | Let | Const | Export | Declare
deriving DecidableEq, Repr

/-- src/tokenizer/token.rs: `Symbol` (subset reachable from declaration
parsing; named `TokSymbol` because Mathlib claims `Symbol`). -/
inductive TokSymbol where
  | Colon | Assign | Comma | Semicolon
deriving DecidableEq, Repr

/-- src/tokenizer/token.rs: `TokenKind` (same subset). -/
inductive TokenKind where
  | Identifier (name : String)
  | Symbol (s : TokSymbol)
  | Keyword (k : Keyword)
  | Eof
deriving DecidableEq, Repr

/-- src/tokenizer/token.rs: `Token`. -/
structure Token where
  slice : StringSlice
  kind : TokenKind
deriving DecidableEq, Repr

/-- The token produced past the end of input: `next_raw` returns `Eof`
tokens forever once the source is exhausted. -/
def eofToken : Token := { slice := "", kind := TokenKind.Eof }

/-- The tokenizer, modelled as the token stream it will produce (a source
that tokenizes without `TokenizeError`); `peek n` looks ahead, `next`
consumes. -/
abbrev Tokenizer := List Token

/-- `Tokenizer::peek`. -/
def Tokenizer.peek (tz : Tokenizer) (n : Nat) : Token :=
  (tz.get? n).getD eofToken

/-- `Tokenizer::next`. -/
def Tokenizer.next (tz : Tokenizer) : Token × Tokenizer :=
  match tz with
  | [] => (eofToken, [])
  | t :: rest => (t, rest)

/-- src/parse_tree/mod.rs: `ParserError` (the `throwing_location` string is
dropped). -/
inductive ParserError where
  | TokenizeError
  | UnexpectedToken (token : Token)
deriving DecidableEq, Repr

/-- Source-slice merging (`StringSlice::merge`); the combination is opaque
to every claim, concatenation keeps it injective enough to compute with. -/
def StringSlice.merge (a b : StringSlice) : StringSlice := a ++ b

/-- The type annotation attached to a `VariableName`.  Claims never
inspect annotations; a parsed annotation is carried opaquely together with
its slice, and the annotation grammar itself (src/parse_tree/ty.rs) stays
behind the `TypeParser` parameter below. -/
structure TypeAnnot where
  slice : StringSlice
deriving DecidableEq, Repr

/-- The `Type::try_parse` entry point of src/parse_tree/ty.rs, abstracted:
any function consuming tokens and yielding an optional annotation. -/
abbrev TypeParser := Tokenizer → Except ParserError (Option (TypeAnnot × Tokenizer))

/-- src/parse_tree/decl/mod.rs: `VariableName` (name plus optional type
annotation). -/
structure VariableName where
  slice : StringSlice
  name : String
  ty : Option TypeAnnot
deriving DecidableEq, Repr

/-- src/parse_tree/decl/mod.rs: `VariableName::try_parse`: `try_next` an
identifier, then an optional `: Type` annotation via `if_next_or_none`
(`require_parse!` turns a failed annotation parse into `UnexpectedToken`
at the pre-parse peek). -/
def VariableName.try_parse (tp : TypeParser) (tz : Tokenizer) :
    Except ParserError (Option (VariableName × Tokenizer)) := do
  let start := (tz.peek 0).slice
  match (tz.peek 0).kind with
  | TokenKind.Identifier name =>
    let tz := (Tokenizer.next tz).2
    let colon := decide ((tz.peek 0).kind = TokenKind.Symbol TokSymbol.Colon)
    let (ty, tz) ←
      if colon then do
        let tz := (Tokenizer.next tz).2
        let peeked := tz.peek 0
        match ← tp tz with
        | some (ty, tz) => pure (some ty, tz)
        | none => throw (ParserError.UnexpectedToken peeked)
      else pure (Option.none, tz)
    let stop := (ty.map fun t => t.slice).getD start
    return some ({ slice := start.merge stop, name := name, ty := ty }, tz)
  | _ => return none

/-- src/parse_tree/decl/variable.rs: `VariableDecl::parse_keyword_const`:
a leading `const` yields `export = false`; `export const` yields
`export = true`; anything else does not parse. -/
def parse_keyword_const (tz : Tokenizer) : Option (Bool × Tokenizer) :=
  if (tz.peek 0).kind = TokenKind.Keyword Keyword.Const then
    some (false, (Tokenizer.next tz).2)
  else if (tz.peek 0).kind = TokenKind.Keyword Keyword.Export ∧
          (tz.peek 1).kind = TokenKind.Keyword Keyword.Const then
    some (true, (Tokenizer.next (Tokenizer.next tz).2).2)
  else none

/-- src/parse_tree/decl/variable.rs: `VariableDecl::try_parse_const`: the
keyword form, then a required `VariableName`; the built declaration sets
`is_const: false` (the field the Rust source writes).  The declaration is
returned as a `VariableDeclNode` (its `param` flattened to the bound
name, as documented there). -/
def VariableDecl.try_parse_const (tp : TypeParser) (tz : Tokenizer) :
    Except ParserError (Option (VariableDeclNode × Tokenizer)) := do
  let start := (tz.peek 0).slice
  match parse_keyword_const tz with
  | none => return none
  | some (isExport, tz) =>
    let peeked := tz.peek 0
    match ← VariableName.try_parse tp tz with
    | none => throw (ParserError.UnexpectedToken peeked)
    | some (param, tz) =>
      let stop := param.slice
      return some (VariableDeclNode.mk (start.merge stop) isExport false param.name, tz)

/-! ## Derived predicate and concrete fixtures -/

/-- No step of the `get_property` cascade can produce a value for `str`
starting from slot `i`: along the prototype chain (followed to its end
within `fuel`) every own slot for `str` is absent, an `Uninitialized`
direct value, or an accessor pair with `Uninitialized` getter, and no
invocable (plain-`Value`) `__get_index__` entry exists. -/
def noProducer : Nat → ObjectPool → Nat → String → Bool
  | 0, _, _, _ => false
  | fuel+1, pool, i, str =>
    match pool.getObject i with
    | none => false
    | some obj =>
      (match obj.values.lookup str with
       | none => true
       | some (Property.Value v) => v = Value.Uninitialized
       | some (Property.GetSet get _) => get = Value.Uninitialized) &&
      (match obj.values.lookup "__get_index__" with
       | some (Property.Value _) => false
       | _ => true) &&
      (match obj.prototype with
       | none => true
       | some proto => noProducer fuel pool proto str)

/-- A boolean literal expression. -/
def boolLit (b : Bool) : Expr :=
  Expr.mk "c" (ExprKind.Literal { slice := "c", kind := LiteralExprKind.Bool b })

/-- An expression statement. -/
def exprStmt (e : Expr) : Stmt := Stmt.mk "s" (StmtKind.Expr e)

/-- A bare `break` statement. -/
def breakStmt : Stmt := Stmt.mk "brS" (StmtKind.Control (ControlStmt.mk "br" ControlKind.Break))

/-- A bare `continue` statement. -/
def continueStmt : Stmt :=
  Stmt.mk "coS" (StmtKind.Control (ControlStmt.mk "co" ControlKind.Continue))

/-- A `while`/`until` loop with the given condition and body statements. -/
def whileOf (untilFlag : Bool) (cond : Expr) (body : List Stmt) : WhileStmt :=
  WhileStmt.mk "w" untilFlag (ConditionArm.mk "a" cond (Block.mk "blk" body))

/-- A one-armed `if` statement (no `else`), as a statement. -/
def ifOf (cond : Expr) (body : List Stmt) : Stmt :=
  Stmt.mk "ifS" (StmtKind.Control (ControlStmt.mk "if"
    (ControlKind.If (IfStmt.mk "if" [ConditionArm.mk "ia" cond (Block.mk "ib" body)] none))))

/-- A one-armed `if` statement with an `else` block, as a statement. -/
def ifElseOf (cond : Expr) (body elseBody : List Stmt) : Stmt :=
  Stmt.mk "ifS" (StmtKind.Control (ControlStmt.mk "if"
    (ControlKind.If (IfStmt.mk "if" [ConditionArm.mk "ia" cond (Block.mk "ib" body)]
      (some (Block.mk "eb" elseBody))))))

/-- A `try`/`catch` statement. -/
def tryOf (tryBody catchBody : List Stmt) : Stmt :=
  Stmt.mk "tryS" (StmtKind.Control (ControlStmt.mk "try"
    (ControlKind.Try (TryStmt.mk "try" (Block.mk "tb" tryBody) "e" (Block.mk "cb" catchBody)))))

/-- The loop of spec scenario `while true do 7 end` used to exhibit the
emitted shape. -/
def whileFailing : WhileStmt := whileOf false (boolLit true) [exprStmt (intLit 7)]

/-- The loop `for each i in true do 7 end` used to exhibit the emitted
shape (the iterated expression is irrelevant to the header layout). -/
def forFailing : ForStmt :=
  ForStmt.mk "f" "i" (boolLit true) (Block.mk "blk" [exprStmt (intLit 7)])

/-- Two mutually referencing objects: slot 0 (`p.q = q` as property `p`
holding object 1) with reference count 1 (only the internal edge from slot
1), slot 1 with reference count 2 (the internal edge from slot 0 plus one
externally held handle).  The single strongly connected component `{0, 1}`
is pinned by the external handle on slot 1. -/
def pinnedPool : ObjectPool :=
  { finalize := [],
    values := [
      { value := some { values := [("p", Property.Value (Value.Object 1))], prototype := none },
        ref_count := 1 },
      { value := some { values := [("q", Property.Value (Value.Object 0))], prototype := none },
        ref_count := 2 }],
    free_indices := [] }

/-- A pool holding a single freshly created object with no properties, no
prototype and one external handle. -/
def emptyObjPool : ObjectPool :=
  { finalize := [],
    values := [{ value := some { values := [], prototype := none }, ref_count := 1 }],
    free_indices := [] }

/-- One object with a direct property `k = 5`, an `Uninitialized` slot
under `u`, and no prototype. -/
def testObj : Object :=
  { values := [("k", Property.Value (Value.Integer 5)),
               ("u", Property.Value Value.Uninitialized)],
    prototype := none }

/-- A pool holding `testObj` alone. -/
def testPool : ObjectPool :=
  { finalize := [],
    values := [{ value := some testObj, ref_count := 1 }],
    free_indices := [] }

/-- An invoker that never fails and returns `None`; used where a concrete
invoker is needed but never reached. -/
def trivInv : Invoker := fun _ _ _ => Except.ok Value.None

/-- The empty string pool. -/
def emptySP : StringPool := { value_map := [], values := [], free_indices := [] }

/-- The token stream of the source `const x`. -/
def constTokens : Tokenizer :=
  [{ slice := "", kind := TokenKind.Keyword Keyword.Const },
   { slice := "", kind := TokenKind.Identifier "x" }]

/-- A type parser that never parses an annotation; the fixtures carry no
annotation, so it is never consulted. -/
def noTyParser : TypeParser := fun _ => Except.ok none

/-! ## Theorems -/

/-- C4: the claim asks that a multiplication lower to `OpMul`, a division
to `OpDiv` and a remainder to `OpRem` after lowering the left and then the
right operand.  Evaluating `BinOpExpr::generate_bytecode` on `1 * 2`,
`1 / 2` and `1 % 2` shows the operands are lowered left-then-right but the
emitted operator opcode is `OpAdd` in all three cases, and neither `OpMul`,
`OpDiv` nor `OpRem` appears: the code contradicts the claim (the spec
itself flags these arms as a typo). -/
theorem mul_div_rem_lower_to_OpAdd :
    (BinOpExpr.generate_bytecode (BinOpExpr.mk "b" (intLit 1) BinOpKind.Mul (intLit 2)) [] =
      Except.ok [OpCode.SetSlice "n", OpCode.PushConstInt 1, OpCode.SetSlice "n",
        OpCode.PushConstInt 2, OpCode.SetSlice "b", OpCode.OpAdd]) ∧
    (BinOpExpr.generate_bytecode (BinOpExpr.mk "b" (intLit 1) BinOpKind.Div (intLit 2)) [] =
      Except.ok [OpCode.SetSlice "n", OpCode.PushConstInt 1, OpCode.SetSlice "n",
        OpCode.PushConstInt 2, OpCode.SetSlice "b", OpCode.OpAdd]) ∧
    (BinOpExpr.generate_bytecode (BinOpExpr.mk "b" (intLit 1) BinOpKind.Rem (intLit 2)) [] =
      Except.ok [OpCode.SetSlice "n", OpCode.PushConstInt 1, OpCode.SetSlice "n",
        OpCode.PushConstInt 2, OpCode.SetSlice "b", OpCode.OpAdd]) := by
  refine ⟨rfl, rfl, rfl⟩

/-- C5: the claim asks for condition, conditional exit placeholder patched
to the post-loop exit, body, and a `Jump` back to the recorded condition
index 0.  Evaluating `WhileStmt::generate_bytecode` on
`while true do 7 end` over an empty stream: the condition sits at index 0,
`JumpFalse 10` is patched to the post-body exit, but the emitted program
contains no `Jump 0` back to the condition — after the body (ending at
index 9) execution falls straight out of the loop, so the body runs at
most once. -/
theorem while_lowering_has_no_back_jump :
    WhileStmt.generate_bytecode whileFailing [] =
      Except.ok [OpCode.SetSlice "c", OpCode.PushConstBool true, OpCode.JumpFalse 10,
        OpCode.SetSlice "blk", OpCode.PushContext, OpCode.SetSlice "s", OpCode.SetSlice "n",
        OpCode.PushConstInt 7, OpCode.Pop, OpCode.PopContext] ∧
    OpCode.Jump 0 ∉ [OpCode.SetSlice "c", OpCode.PushConstBool true, OpCode.JumpFalse 10,
        OpCode.SetSlice "blk", OpCode.PushContext, OpCode.SetSlice "s", OpCode.SetSlice "n",
        OpCode.PushConstInt 7, OpCode.Pop, OpCode.PopContext] := by
  exact ⟨rfl, by simp⟩

/-- C6: the claim asks that the for-each header end in a conditional
`JumpFalse` to the loop exit and that the body fall into the increment
block.  Evaluating `ForStmt::generate_bytecode` on
`for each i in true do 7 end` over an empty stream: the header comparison
(indices 15-19) is followed at index 20 by the *unconditional* `Jump 28`
to the exit, `JumpFalse 28` appears nowhere, and no instruction jumps back
to the increment block at index 10 — the body (indices 21-27) is never
entered, and were it entered it would fall out of the loop. -/
theorem for_lowering_header_and_body :
    (ForStmt.generate_bytecode forFailing [] =
      Except.ok [OpCode.InitVariable "__each_i_value__", OpCode.SetSlice "c",
        OpCode.PushConstBool true, OpCode.StoreVariable "__each_i_value__", OpCode.Pop,
        OpCode.InitVariable "__each_i_index__", OpCode.PushConstInt 0,
        OpCode.StoreVariable "__each_i_index__", OpCode.Pop, OpCode.Jump 15,
        OpCode.PushVariable "__each_i_index__", OpCode.PushConstInt 1, OpCode.OpAdd,
        OpCode.StoreVariable "__each_i_index__", OpCode.Pop,
        OpCode.PushVariable "__each_i_index__", OpCode.PushVariable "__each_i_value__",
        OpCode.PushConstString "length", OpCode.PushIndex, OpCode.OpLt, OpCode.Jump 28,
        OpCode.SetSlice "blk", OpCode.PushContext, OpCode.SetSlice "s", OpCode.SetSlice "n",
        OpCode.PushConstInt 7, OpCode.Pop, OpCode.PopContext]) ∧
    OpCode.JumpFalse 28 ∉ [OpCode.InitVariable "__each_i_value__", OpCode.SetSlice "c",
        OpCode.PushConstBool true, OpCode.StoreVariable "__each_i_value__", OpCode.Pop,
        OpCode.InitVariable "__each_i_index__", OpCode.PushConstInt 0,
        OpCode.StoreVariable "__each_i_index__", OpCode.Pop, OpCode.Jump 15,
        OpCode.PushVariable "__each_i_index__", OpCode.PushConstInt 1, OpCode.OpAdd,
        OpCode.StoreVariable "__each_i_index__", OpCode.Pop,
        OpCode.PushVariable "__each_i_index__", OpCode.PushVariable "__each_i_value__",
        OpCode.PushConstString "length", OpCode.PushIndex, OpCode.OpLt, OpCode.Jump 28,
        OpCode.SetSlice "blk", OpCode.PushContext, OpCode.SetSlice "s", OpCode.SetSlice "n",
        OpCode.PushConstInt 7, OpCode.Pop, OpCode.PopContext] ∧
    OpCode.Jump 10 ∉ [OpCode.InitVariable "__each_i_value__", OpCode.SetSlice "c",
        OpCode.PushConstBool true, OpCode.StoreVariable "__each_i_value__", OpCode.Pop,
        OpCode.InitVariable "__each_i_index__", OpCode.PushConstInt 0,
        OpCode.StoreVariable "__each_i_index__", OpCode.Pop, OpCode.Jump 15,
        OpCode.PushVariable "__each_i_index__", OpCode.PushConstInt 1, OpCode.OpAdd,
        OpCode.StoreVariable "__each_i_index__", OpCode.Pop,
        OpCode.PushVariable "__each_i_index__", OpCode.PushVariable "__each_i_value__",
        OpCode.PushConstString "length", OpCode.PushIndex, OpCode.OpLt, OpCode.Jump 28,
        OpCode.SetSlice "blk", OpCode.PushContext, OpCode.SetSlice "s", OpCode.SetSlice "n",
        OpCode.PushConstInt 7, OpCode.Pop, OpCode.PopContext] := by
  exact ⟨rfl, by simp, by simp⟩

/-- C7: the claim asks that a declaration parsed by the `const` form carry
`is_const = true` and that its lowering therefore emit
`MarkVariableConst`.  Evaluating `VariableDecl::try_parse_const` on the
tokens of `const x` (under any type-annotation subparser) yields a
declaration with `is_const = false`, and lowering `const x = 1` built from
that declaration emits `InitVariable`, the initializer, `StoreVariable` —
and no `MarkVariableConst`. -/
theorem try_parse_const_sets_is_const_false :
    (∀ tp : TypeParser,
      VariableDecl.try_parse_const tp constTokens =
        Except.ok (some (VariableDeclNode.mk "" false false "x", []))) ∧
    (VariableImplNode.generate_bytecode
        (VariableImplNode.mk "" (VariableDeclNode.mk "" false false "x") (some (intLit 1)))
        [] true =
      Except.ok [OpCode.InitVariable "x", OpCode.SetSlice "n", OpCode.PushConstInt 1,
        OpCode.StoreVariable "x"]) ∧
    OpCode.MarkVariableConst "x" ∉ [OpCode.InitVariable "x", OpCode.SetSlice "n",
        OpCode.PushConstInt 1, OpCode.StoreVariable "x"] := by
  exact ⟨fun tp => rfl, rfl, by simp⟩

/-- C9: the claim asks that `create_native_module` on a name not in the
cache return normally and leave the cache mapping the name to the module.
Evaluating the model on the empty cache: the insertion does happen, but
the function result is the previous binding of the name unwrapped —
`HashMap::insert` returns `None` for a fresh name, so the `unwrap` panics
(first component `none`) on every not-already-cached name. -/
theorem create_native_module_panics_on_fresh_name :
    create_native_module [] "m" Value.None =
      (none, [("m", { bytecode := none, export_value := Value.None })]) ∧
    ([("m", ({ bytecode := none, export_value := Value.None } : RtModule))].lookup "m" =
      some { bytecode := none, export_value := Value.None }) := by
  exact ⟨rfl, rfl⟩

/-- C1: the claim asks that a graph whose every strongly connected
component holds at least one external handle lose no object to
`collect_garbage`.  Evaluating the collector on `pinnedPool` — the
two-object cycle `0 ↔ 1` whose single component is pinned by an external
handle on object 1 — shows object 0 is freed in the first pass (its
reference count 1 does not exceed its one cycle-return edge), while
object 1 survives with its property `q` still pointing at the now-empty
slot 0: the code frees a member of an externally pinned component. -/
theorem collect_garbage_frees_pinned_cycle_member :
    collect_garbage 3 pinnedPool =
      some { finalize := [],
             values := [
               { value := none, ref_count := 1 },
               { value := some { values := [("q", Property.Value (Value.Object 0))],
                                 prototype := none }, ref_count := 1 }],
             free_indices := [] } := by
  rfl

/-- C2: the claim asks that writing a fresh string key append a new
insertion-ordered entry so a subsequent read returns the written value.
Evaluating `set_property` on a pool with one empty object (no
`__set_index__` handler, no prototype) under any invoker: the write falls
through to `set_index`, returns `Uninitialized`, and leaves the pool
unchanged; the subsequent `get_property` of the same key returns
`Uninitialized`, not the written value — no code path inserts a new
property entry. -/
theorem set_property_never_inserts :
    ∀ inv : Invoker,
      set_property 2 emptyObjPool inv (Value.Object 0) 0 (Value.String "a") (Value.Integer 1) =
        some (Except.ok Value.Uninitialized, emptyObjPool) ∧
      get_property 2 emptyObjPool inv (Value.Object 0) 0 (Value.String "a") =
        some (Except.ok Value.Uninitialized) := by
  exact fun inv => ⟨rfl, rfl⟩

mutual

/-- In the embedded expression fragment, expression lowering never fails. -/
theorem exprGenerateIsOk : ∀ (e : Expr) (bc : List OpCode),
    ∃ out, Expr.generate_bytecode e bc = Except.ok out
  | Expr.mk _ (ExprKind.Literal _), _ => ⟨_, rfl⟩
  | Expr.mk _ (ExprKind.BinOp e), bc => binOpExprGenerateIsOk e bc
  | Expr.mk _ (ExprKind.UnaryOp e), bc => unaryOpExprGenerateIsOk e bc

/-- Binary-operator lowering never fails in the fragment. -/
theorem binOpExprGenerateIsOk : ∀ (e : BinOpExpr) (bc : List OpCode),
    ∃ out, BinOpExpr.generate_bytecode e bc = Except.ok out
  | BinOpExpr.mk slice lhs op rhs, bc => by
    obtain ⟨o1, h1⟩ := exprGenerateIsOk lhs bc
    obtain ⟨o2, h2⟩ := exprGenerateIsOk rhs o1
    cases op <;> simp [BinOpExpr.generate_bytecode, h1, h2, Bind.bind, Except.bind, Functor.map, Except.map, Pure.pure, Except.pure, Except.ok.injEq, exists_eq]

/-- Unary-operator lowering never fails in the fragment. -/
theorem unaryOpExprGenerateIsOk : ∀ (e : UnaryOpExpr) (bc : List OpCode),
    ∃ out, UnaryOpExpr.generate_bytecode e bc = Except.ok out
  | UnaryOpExpr.mk slice op value, bc => by
    obtain ⟨o1, h1⟩ := exprGenerateIsOk value bc
    cases op <;> simp [UnaryOpExpr.generate_bytecode, h1, Bind.bind, Except.bind, Functor.map, Except.map, Pure.pure, Except.pure, Except.ok.injEq, exists_eq]

end

/-- C10: a `break` or `continue` compiles exactly when it stands directly
in the statement list of a `while`/`until` or for-each body.  Directly in
a loop body (the loops lower their blocks with break/continue allowed) the
lowering succeeds; a bare `break`/`continue` where the flag is cleared is
`IllegalBreak`/`IllegalContinue`; and nested inside an `if` arm, an `else`
arm, a `try` block or a `catch` block — even when that construct itself
sits in a loop body — the lowering fails the same way, because `IfStmt`
and `TryStmt` lower their blocks with break/continue disallowed. -/
theorem break_continue_only_directly_in_loop_bodies :
    ∀ (c : Expr) (bc : List OpCode),
      ((WhileStmt.generate_bytecode (whileOf false c [breakStmt]) bc).isOk = true) ∧
      ((WhileStmt.generate_bytecode (whileOf true c [continueStmt]) bc).isOk = true) ∧
      ((ForStmt.generate_bytecode (ForStmt.mk "f" "x" c (Block.mk "blk" [breakStmt])) bc).isOk
        = true) ∧
      ((ForStmt.generate_bytecode (ForStmt.mk "f" "x" c (Block.mk "blk" [continueStmt])) bc).isOk
        = true) ∧
      (∀ allow_export : Bool,
        ControlStmt.generate_bytecode (ControlStmt.mk "br" ControlKind.Break) bc
          allow_export false = Except.error (BytecodeGenerationError.IllegalBreak "br")) ∧
      (∀ allow_export : Bool,
        ControlStmt.generate_bytecode (ControlStmt.mk "co" ControlKind.Continue) bc
          allow_export false = Except.error (BytecodeGenerationError.IllegalContinue "co")) ∧
      (WhileStmt.generate_bytecode (whileOf false c [ifOf (boolLit true) [breakStmt]]) bc =
        Except.error (BytecodeGenerationError.IllegalBreak "br")) ∧
      (WhileStmt.generate_bytecode (whileOf false c [ifElseOf (boolLit true) [] [breakStmt]]) bc =
        Except.error (BytecodeGenerationError.IllegalBreak "br")) ∧
      (WhileStmt.generate_bytecode (whileOf false c [tryOf [breakStmt] []]) bc =
        Except.error (BytecodeGenerationError.IllegalBreak "br")) ∧
      (WhileStmt.generate_bytecode (whileOf false c [tryOf [] [breakStmt]]) bc =
        Except.error (BytecodeGenerationError.IllegalBreak "br")) ∧
      (ForStmt.generate_bytecode
          (ForStmt.mk "f" "x" c (Block.mk "blk" [ifOf (boolLit true) [continueStmt]])) bc =
        Except.error (BytecodeGenerationError.IllegalContinue "co")) := by
  intro c bc
  obtain ⟨o, h⟩ := exprGenerateIsOk c bc
  obtain ⟨o2, h2⟩ := exprGenerateIsOk c (bc ++ [OpCode.InitVariable "__each_x_value__"])
  refine ⟨?_, ?_, ?_, ?_, fun _ => rfl, fun _ => rfl, ?_, ?_, ?_, ?_, ?_⟩ <;>
    simp [whileOf, breakStmt, continueStmt, ifOf, ifElseOf, tryOf, boolLit, exprStmt,
      WhileStmt.generate_bytecode, ForStmt.generate_bytecode, Block.generate_bytecode,
      stmtsGenerate, Stmt.generate_bytecode, ControlStmt.generate_bytecode,
      IfStmt.generate_bytecode, ifArmsConditions, ifArmsBlocks, TryStmt.generate_bytecode,
      LiteralExpr.generate_bytecode, Expr.generate_bytecode, h, h2,
      Bind.bind, Except.bind, Functor.map, Except.map, Pure.pure, Except.pure, Except.isOk,
      Except.toBool]

/-- When the own slot for a `String` key is absent, holds
`Value Uninitialized`, or is an accessor pair with `Uninitialized` getter,
`get_property` continues with exactly the fallback steps
(`__get_index__`, then the prototype chain, then `Uninitialized`). -/
theorem get_property_falls_through (fuel : Nat) (pool : ObjectPool) (inv : Invoker)
    (this_obj : Value) (i : Nat) (str : String) (obj : Object)
    (hobj : pool.getObject i = some obj)
    (hlook : obj.values.lookup str = none ∨
      obj.values.lookup str = some (Property.Value Value.Uninitialized) ∨
      ∃ s, obj.values.lookup str = some (Property.GetSet Value.Uninitialized s)) :
    get_property (fuel+1) pool inv this_obj i (Value.String str) =
      get_property_fallback fuel pool inv this_obj (Value.String str) obj := by
  rcases hlook with h | h | ⟨s, h⟩ <;>
    simp [get_property, get_property_fallback, hobj, h]

/-- C3: property lookup shadowing.  (1) An own `String`-keyed slot holding
`Value v` with `v` not `Uninitialized` makes `get_property` return `v`.
(2) An own slot holding `Value Uninitialized` does not stop the lookup:
the call equals the fallback steps — the `__get_index__` handler and then
the recursion into the prototype chain.  (3) When no step along the chain
can produce a value (`noProducer`), `get_property` returns
`Uninitialized`. -/
theorem get_property_shadowing :
    (∀ (fuel : Nat) (pool : ObjectPool) (inv : Invoker) (this_obj : Value) (i : Nat)
        (str : String) (obj : Object) (v : Value),
      pool.getObject i = some obj →
      obj.values.lookup str = some (Property.Value v) →
      v ≠ Value.Uninitialized →
      get_property (fuel+1) pool inv this_obj i (Value.String str) = some (Except.ok v)) ∧
    (∀ (fuel : Nat) (pool : ObjectPool) (inv : Invoker) (this_obj : Value) (i : Nat)
        (str : String) (obj : Object),
      pool.getObject i = some obj →
      obj.values.lookup str = some (Property.Value Value.Uninitialized) →
      get_property (fuel+1) pool inv this_obj i (Value.String str) =
        get_property_fallback fuel pool inv this_obj (Value.String str) obj) ∧
    (∀ (fuel : Nat) (pool : ObjectPool) (inv : Invoker) (this_obj : Value) (i : Nat)
        (str : String),
      noProducer fuel pool i str = true →
      get_property fuel pool inv this_obj i (Value.String str) =
        some (Except.ok Value.Uninitialized)) := by
  refine ⟨?_, ?_, ?_⟩
  · intro fuel pool inv this_obj i str obj v hobj hlook hv
    simp [get_property, hobj, hlook, hv]
  · intro fuel pool inv this_obj i str obj hobj hlook
    exact get_property_falls_through fuel pool inv this_obj i str obj hobj (Or.inr (Or.inl hlook))
  · intro fuel
    induction fuel with
    | zero =>
      intro pool inv this_obj i str hnp
      simp [noProducer] at hnp
    | succ fuel ih =>
      intro pool inv this_obj i str hnp
      cases hobj : pool.getObject i with
      | none => simp [noProducer, hobj] at hnp
      | some obj =>
        rw [noProducer] at hnp
        simp only [hobj, Bool.and_eq_true] at hnp
        obtain ⟨⟨h1, h2⟩, h3⟩ := hnp
        have hfb : get_property_fallback fuel pool inv this_obj (Value.String str) obj =
            some (Except.ok Value.Uninitialized) := by
          cases hgi : obj.values.lookup "__get_index__" with
          | none =>
            cases hproto : obj.prototype with
            | none => simp [get_property_fallback, hgi, hproto]
            | some proto =>
              rw [hproto] at h3
              simp [get_property_fallback, hgi, hproto, ih pool inv this_obj proto str h3]
          | some prop =>
            rw [hgi] at h2
            cases prop with
            | Value handler => simp at h2
            | GetSet g s =>
              cases hproto : obj.prototype with
              | none => simp [get_property_fallback, hgi, hproto]
              | some proto =>
                rw [hproto] at h3
                simp [get_property_fallback, hgi, hproto, ih pool inv this_obj proto str h3]
        have hstep : get_property (fuel+1) pool inv this_obj i (Value.String str) =
            get_property_fallback fuel pool inv this_obj (Value.String str) obj := by
          refine get_property_falls_through fuel pool inv this_obj i str obj hobj ?_
          cases hlook : obj.values.lookup str with
          | none => exact Or.inl rfl
          | some prop =>
            rw [hlook] at h1
            cases prop with
            | Value v =>
              simp only [decide_eq_true_eq] at h1
              exact Or.inr (Or.inl (by rw [h1]))
            | GetSet g s =>
              simp only [decide_eq_true_eq] at h1
              exact Or.inr (Or.inr ⟨s, by rw [h1]⟩)
        rw [hstep, hfb]

/-- Witness for C3: in `testPool`, reading `k` returns `Integer 5`;
reading the `Uninitialized` slot `u` equals the fallback cascade; reading
the absent key `z` returns `Uninitialized`. -/
theorem get_property_shadowing_witness :
    get_property 1 testPool trivInv Value.None 0 (Value.String "k") =
      some (Except.ok (Value.Integer 5)) ∧
    get_property 1 testPool trivInv Value.None 0 (Value.String "u") =
      get_property_fallback 0 testPool trivInv Value.None (Value.String "u") testObj ∧
    get_property 2 testPool trivInv Value.None 0 (Value.String "z") =
      some (Except.ok Value.Uninitialized) :=
  ⟨get_property_shadowing.1 0 testPool trivInv Value.None 0 "k" testObj (Value.Integer 5)
      rfl rfl (by decide),
   get_property_shadowing.2.1 0 testPool trivInv Value.None 0 "u" testObj rfl rfl,
   get_property_shadowing.2.2 2 testPool trivInv Value.None 0 "z" (by decide)⟩

/-- Filtering away every binding of `k` leaves nothing for `lookup k` to
find (the effect of `HashMap::remove`). -/
theorem lookup_filter_ne (m : List (String × Nat)) (k : String) :
    (m.filter fun p => p.1 ≠ k).lookup k = none := by
  induction m with
  | nil => rfl
  | cons p rest ih =>
    by_cases h : p.1 = k
    · simp only [List.filter_cons, h]
      simpa using ih
    · have hne : (k == p.1) = false := by
        simp only [beq_eq_false_iff_ne]
        exact fun hh => h hh.symm
      simp only [List.filter_cons, decide_not, h, decide_False, Bool.not_false, if_true]
      simpa [List.lookup, hne] using ih

/-- Second acquire on an interned entry with one reference, followed by
two drops: the handle index is reused with reference count 2, and the two
drops empty the slot, free the index and remove the binding. -/
theorem acquire_hit_then_drops (p1 : StringPool) (s : String) (i : Nat)
    (hlook : p1.value_map.lookup s = some i)
    (hget : p1.values[i]? = some (some { value := s, ref_count := 1 })) :
    ∃ p2, p1.acquire s = some (p2, i) ∧
      p2.values[i]? = some (some { value := s, ref_count := 2 }) ∧
      ((p2.drop_reference i).drop_reference i).values[i]? = some none ∧
      i ∈ ((p2.drop_reference i).drop_reference i).free_indices ∧
      ((p2.drop_reference i).drop_reference i).value_map.lookup s = none := by
  obtain ⟨hlt, -⟩ := List.getElem?_eq_some.mp hget
  have hacq2 : p1.acquire s =
      some ({ p1 with values := p1.values.set i (some ⟨s, 2⟩) }, i) := by
    simp [StringPool.acquire, hlook, List.get?_eq_getElem?, hget]
  have hget2 : (p1.values.set i (some (⟨s, 2⟩ : StringPoolValue)))[i]? =
      some (some ⟨s, 2⟩) := List.getElem?_set_eq_of_lt _ hlt
  have hdrop1 : StringPool.drop_reference { p1 with values := p1.values.set i (some ⟨s, 2⟩) } i =
      { p1 with values := p1.values.set i (some ⟨s, 1⟩) } := by
    simp [StringPool.drop_reference, List.get?_eq_getElem?, hget2, List.set_set]
  have hget3 : (p1.values.set i (some (⟨s, 1⟩ : StringPoolValue)))[i]? =
      some (some ⟨s, 1⟩) := List.getElem?_set_eq_of_lt _ hlt
  have hdrop2 : StringPool.drop_reference { p1 with values := p1.values.set i (some ⟨s, 1⟩) } i =
      { value_map := mapRemove p1.value_map s,
        values := p1.values.set i none,
        free_indices := p1.free_indices ++ [i] } := by
    simp [StringPool.drop_reference, List.get?_eq_getElem?, hget3, List.set_set]
  refine ⟨_, hacq2, hget2, ?_, ?_, ?_⟩ <;> rw [hdrop1, hdrop2]
  · exact List.getElem?_set_eq_of_lt _ hlt
  · simp
  · exact lookup_filter_ne p1.value_map s

/-- C8: acquiring the same byte sequence twice on a pool where it is not
yet interned hands out the same pool index twice (the second acquire
reuses the entry, raising its reference count to 2), and dropping both
handles empties the slot, pushes the index onto the free list and removes
the bytes-to-index binding.  The pool is arbitrary subject to the pool
invariant that free indices lie inside the slot vector. -/
theorem acquire_acquire_then_drop_drop (pool : StringPool) (s : String)
    (hmap : pool.value_map.lookup s = none)
    (hfree : ∀ j ∈ pool.free_indices, j < pool.values.length) :
    ∃ p1 i p2,
      pool.acquire s = some (p1, i) ∧
      p1.acquire s = some (p2, i) ∧
      p2.values[i]? = some (some { value := s, ref_count := 2 }) ∧
      ((p2.drop_reference i).drop_reference i).values[i]? = some none ∧
      i ∈ ((p2.drop_reference i).drop_reference i).free_indices ∧
      ((p2.drop_reference i).drop_reference i).value_map.lookup s = none := by
  cases hlast : pool.free_indices.getLast? with
  | none =>
    have hacq1 : pool.acquire s =
        some ({ value_map := mapInsert pool.value_map s pool.values.length,
                values := pool.values ++ [some ⟨s, 1⟩],
                free_indices := pool.free_indices }, pool.values.length) := by
      simp [StringPool.acquire, hmap, hlast]
    obtain ⟨p2, h2, h3, h4, h5, h6⟩ :=
      acquire_hit_then_drops
        { value_map := mapInsert pool.value_map s pool.values.length,
          values := pool.values ++ [some ⟨s, 1⟩],
          free_indices := pool.free_indices }
        s pool.values.length
        (by simp [mapInsert, List.lookup])
        (List.getElem?_concat_length _ _)
    exact ⟨_, pool.values.length, p2, hacq1, h2, h3, h4, h5, h6⟩
  | some index =>
    have hidx : index < pool.values.length :=
      hfree index (List.mem_of_mem_getLast? hlast)
    have hacq1 : pool.acquire s =
        some ({ value_map := mapInsert pool.value_map s index,
                values := pool.values.set index (some ⟨s, 1⟩),
                free_indices := pool.free_indices.dropLast }, index) := by
      simp [StringPool.acquire, hmap, hlast, hidx]
    obtain ⟨p2, h2, h3, h4, h5, h6⟩ :=
      acquire_hit_then_drops
        { value_map := mapInsert pool.value_map s index,
          values := pool.values.set index (some ⟨s, 1⟩),
          free_indices := pool.free_indices.dropLast }
        s index
        (by simp [mapInsert, List.lookup])
        (List.getElem?_set_eq_of_lt _ hidx)
    exact ⟨_, index, p2, hacq1, h2, h3, h4, h5, h6⟩

/-- Witness for C8: on the empty pool and the bytes `"ab"`, both acquires
return index 0 with reference count 2, and the two drops empty slot 0,
free index 0 and drop the binding. -/
theorem acquire_acquire_then_drop_drop_witness :
    (([] : List (String × Nat)).lookup "ab" = none) ∧
    (∀ j ∈ ([] : List Nat), j < ([] : List (Option StringPoolValue)).length) ∧
    (∃ p1 i p2,
      emptySP.acquire "ab" = some (p1, i) ∧
      p1.acquire "ab" = some (p2, i) ∧
      p2.values[i]? = some (some { value := "ab", ref_count := 2 }) ∧
      ((p2.drop_reference i).drop_reference i).values[i]? = some none ∧
      i ∈ ((p2.drop_reference i).drop_reference i).free_indices ∧
      ((p2.drop_reference i).drop_reference i).value_map.lookup "ab" = none) :=
  ⟨rfl, by simp, acquire_acquire_then_drop_drop emptySP "ab" rfl (by simp [emptySP])⟩
